import Mathlib

/-!
Shallow embedding of the lobby/slot server (`server.py`) and verification of
the frozen claims about its session state machine.

The mutable process state (`app.state.players`, `app.state.slots`,
`app.state.game_started`) is embedded as `ServerState`; the Python dict
`players` is an insertion-ordered association list with the exact read/write
semantics of dict access.  Each branch of the per-connection message loop in
`websocket_endpoint`, the connection-open section, and the
`WebSocketDisconnect` handler are embedded as pure functions returning the
new state together with the list of messages sent (direct replies and
broadcasts, in program order).
-/

namespace Server

/-- Player record, one per identity (`app.state.players[uid]`, lines 10-15 and
`register_player`).  The connection handle is abstracted to a numeric id. -/
structure Player where
  ws : Option Nat
  connected : Bool
  in_game_area : Bool
  in_watch_area : Bool
  slot_idx : Option Nat
  deriving Repr, DecidableEq

/-- Association-list read, mirroring the Python dict read `players.get(uid)`. -/
def lookupP (u : String) : List (String × Player) → Option Player
  | [] => none
  | (k, v) :: rest => if k = u then some v else lookupP u rest

/-- Association-list write, mirroring Python dict assignment
`players[uid] = ...`: replaces in place when the key exists, appends a new
entry otherwise (insertion order preserved, keys unique). -/
def setP (u : String) (v : Player) : List (String × Player) → List (String × Player)
  | [] => [(u, v)]
  | (k, w) :: rest => if k = u then (k, v) :: rest else (k, w) :: setP u v rest

/-- The shared mutable server state: `app.state.players`, `app.state.slots`,
`app.state.game_started` (lines 16-19). -/
structure ServerState where
  players : List (String × Player)
  slots : List String
  game_started : Bool
  deriving Repr, DecidableEq

/-- Initial process state (lines 16-19). -/
def initState : ServerState := { players := [], slots := [], game_started := false }

/-- Mirrors `slot_label` (line 53): the label `f"{idx+1}P"`. -/
def slot_label (idx : Nat) : String := toString (idx + 1) ++ "P"

/-- Payload of `notify_slots_update` (lines 57-62): one `{slot, uid}` pair per
entry of the slot table, in order. -/
def slots_info (slots : List String) : List (String × String) :=
  slots.enum.map (fun e => (slot_label e.1, e.2))

/-- Mirrors `register_player` (lines 65-72): overwrite the whole record. -/
def register_player (uid : String) (ws : Option Nat)
    (connect game_area watch_area : Bool) (slot : Option Nat)
    (ps : List (String × Player)) : List (String × Player) :=
  setP uid { ws := ws
             connected := connect
             in_game_area := game_area
             in_watch_area := watch_area
             slot_idx := slot } ps

/-- Logical message tags sent by the server (the wire encoding is out of
scope; payloads kept where a claim mentions them). -/
inductive Msg where
  | assignId (uid : String)
  | connectedAck
  | pong
  | enteredSpectate
  | joined (slot : String)
  | onlySpectator
  | startDenied
  | echo (raw : String)
  | slotsUpdate (info : List (String × String))
  | playerLeft (uid : String)
  | playerDisconnected (uid : String)
  deriving Repr, DecidableEq

/-- A send performed while handling an event: either a direct reply on the
handling connection (`send_safe_key(websocket, ...)`) or a broadcast to all
connected players (`broadcast` / `notify_slots_update`). -/
inductive Out where
  | toConn (m : Msg)
  | toAll (m : Msg)
  deriving Repr, DecidableEq

/-- Typed inbound requests of the text protocol (line 113). -/
inductive Req where
  | ping
  | enterSpectate
  | enterGame
  | leaveGame
  | start
  | unknown (raw : String)
  deriving Repr, DecidableEq

/-- Renumbering loop `for new_idx, uid in enumerate(app.state.slots):`
(lines 187-190 and 244-247): walk the slot table in order and assign each
occupant's record `slot_idx` to its position; a uid without a record is
skipped.  `start` is the position of the head of the remaining list. -/
def renumberFrom (ps : List (String × Player)) (start : Nat) :
    List String → List (String × Player)
  | [] => ps
  | u :: rest =>
    match lookupP u ps with
    | some q => renumberFrom (setP u { q with slot_idx := some start } ps) (start + 1) rest
    | none => renumberFrom ps (start + 1) rest

/-- Renumbering of the whole slot table after a removal. -/
def renumber (ps : List (String × Player)) (slots : List String) :
    List (String × Player) :=
  renumberFrom ps 0 slots

/-- Result of handling one inbound message: post state, sends in program
order, the handler-local `uid` variable after the branch (the renumbering
loop of the pre-start LEAVE_GAME branch rebinds it), and whether an uncaught
exception was raised. -/
structure HRes where
  st : ServerState
  out : List Out
  uid : String
  err : Bool
  deriving Repr, DecidableEq

/-- Branches of the message loop of `websocket_endpoint` (lines 123-219),
handling one decoded request on behalf of the handler-local variable `uid`,
with `p` the player record already looked up (or freshly registered by the
safety net, see `handleMessage`).

Branch notes, in source order:
* PING (124-126); ENTER_SPECTATE (129-134): clears `slot_idx` but does not
  touch `app.state.slots`;
* ENTER_GAME (137-170); LEAVE_GAME (173-202): in the pre-start release
  branch `app.state.slots.pop(idx)` swallows an IndexError, which is exactly
  `List.eraseIdx` (unchanged when out of range), and the renumbering `for`
  loop rebinds the local `uid` to the last entry of the post-removal table
  when it is nonempty;
* START (205-216): on success the code sets `game_started = True` and then
  calls `broadcast(f"GAME_START {len(app.state.slots)}")`, but `broadcast`
  (line 45) takes three required positional parameters, so the call raises
  `TypeError` before anything is sent; the flag mutation persists and the
  exception escapes the loop (`err := true`, no sends);
* unknown type (219): echo the raw payload. -/
def handleCore (uid : String) (req : Req) (st : ServerState) (p : Player) : HRes :=
  match req with
  | .ping => { st := st, out := [.toConn .pong], uid := uid, err := false }
  | .enterSpectate =>
    let p1 := { p with
      in_game_area := false
      in_watch_area := true
      slot_idx := (none : Option Nat) }
    { st := { st with players := setP uid p1 st.players },
      out := [.toConn .enteredSpectate], uid := uid, err := false }
  | .enterGame =>
    if st.game_started then
      match p.slot_idx with
      | some i =>
        let p1 := { p with in_game_area := true, in_watch_area := false }
        { st := { st with players := setP uid p1 st.players },
          out := [.toConn (.joined (slot_label i))], uid := uid, err := false }
      | none =>
        let p1 := { p with
          in_game_area := false
          in_watch_area := true
          slot_idx := (none : Option Nat) }
        { st := { st with players := setP uid p1 st.players },
          out := [.toConn .onlySpectator], uid := uid, err := false }
    else
      match p.slot_idx with
      | some i =>
        let p1 := { p with in_game_area := true, in_watch_area := false }
        { st := { st with players := setP uid p1 st.players },
          out := [.toConn (.joined (slot_label i))], uid := uid, err := false }
      | none =>
        let slots1 := st.slots ++ [uid]
        let new_idx := slots1.length - 1
        let p1 := { p with
          slot_idx := some new_idx
          in_game_area := true
          in_watch_area := false }
        { st := { st with slots := slots1, players := setP uid p1 st.players },
          out := [.toConn (.joined (slot_label new_idx)),
                  .toAll (.slotsUpdate (slots_info slots1))],
          uid := uid, err := false }
  | .leaveGame =>
    match p.in_game_area, p.slot_idx with
    | true, some idx =>
      if st.game_started then
        let p1 := { p with
          in_game_area := false
          connected := false
          ws := (none : Option Nat) }
        { st := { st with players := setP uid p1 st.players },
          out := [.toAll (.playerLeft uid)], uid := uid, err := false }
      else
        let slots1 := st.slots.eraseIdx idx
        let ps1 := setP uid { p with slot_idx := none, in_game_area := false } st.players
        let ps2 := renumber ps1 slots1
        { st := { st with slots := slots1, players := ps2 },
          out := [.toAll (.slotsUpdate (slots_info slots1))],
          uid := (match slots1.getLast? with | some u => u | none => uid),
          err := false }
    | _, _ =>
      let p1 := { p with in_game_area := false }
      { st := { st with players := setP uid p1 st.players },
        out := [], uid := uid, err := false }
  | .start =>
    if p.slot_idx = some 0 ∧ p.in_game_area = true ∧ st.game_started = false then
      { st := { st with game_started := true }, out := [], uid := uid, err := true }
    else
      { st := st, out := [.toConn .startDenied], uid := uid, err := false }
  | .unknown raw =>
    { st := st, out := [.toConn (.echo raw)], uid := uid, err := false }

/-- One iteration of the message loop of `websocket_endpoint`
(lines 110-219): look the handler-local `uid` up, register it fresh if
missing (safety net, lines 118-121), then run the branch on the request. -/
def handleMessage (uid : String) (wsId : Nat) (req : Req) (st0 : ServerState) : HRes :=
  match lookupP uid st0.players with
  | some p => handleCore uid req st0 p
  | none =>
    handleCore uid req
      { st0 with players := register_player uid (some wsId) true false false none st0.players }
      { ws := some wsId
        connected := true
        in_game_area := false
        in_watch_area := false
        slot_idx := none }

/-- Connection-open section of `websocket_endpoint` (lines 79-108): resolve
the identity from the optional query uid, register or reconnect, and send
ASSIGN_ID, CONNECTED, then the current slot listing.  `freshUid` stands for
the `uuid.uuid4()` value minted when no uid is supplied.  Returns the post
state, the resolved handler-local uid, and the sends. -/
def connectStep (queryUid : Option String) (wsId : Nat) (freshUid : String)
    (st : ServerState) : ServerState × String × List Out :=
  match queryUid with
  | none =>
    let st1 : ServerState :=
      { st with players := register_player freshUid (some wsId) true false false none st.players }
    (st1, freshUid,
      [.toConn (.assignId freshUid), .toConn .connectedAck,
       .toAll (.slotsUpdate (slots_info st1.slots))])
  | some uid =>
    match lookupP uid st.players with
    | none =>
      let st1 : ServerState :=
        { st with players := register_player uid (some wsId) true false false none st.players }
      (st1, uid,
        [.toConn (.assignId uid), .toConn .connectedAck,
         .toAll (.slotsUpdate (slots_info st1.slots))])
    | some p =>
      let st1 : ServerState :=
        { st with players := setP uid { p with ws := some wsId, connected := true } st.players }
      (st1, uid,
        [.toConn (.assignId uid), .toConn .connectedAck,
         .toAll (.slotsUpdate (slots_info st1.slots))])

/-- The `WebSocketDisconnect` handler (lines 221-257): mark the player
disconnected and drop the handle; pre-start, release a held slot
(`slots.pop`, clear `slot_idx`/areas, renumber, broadcast the listing);
post-start, keep the slot and broadcast PLAYER_DISCONNECTED. -/
def disconnectStep (uid : String) (st : ServerState) : ServerState × List Out :=
  match lookupP uid st.players with
  | none => (st, [])
  | some p =>
    if st.game_started then
      ({ st with players := setP uid { p with connected := false, ws := none } st.players },
       [.toAll (.playerDisconnected uid)])
    else
      match p.slot_idx with
      | some idx =>
        let slots1 := st.slots.eraseIdx idx
        let p1 := { p with
          connected := false
          ws := (none : Option Nat)
          slot_idx := (none : Option Nat)
          in_game_area := false
          in_watch_area := false }
        let ps1 := setP uid p1 st.players
        let ps2 := renumber ps1 slots1
        ({ st with slots := slots1, players := ps2 },
         [.toAll (.slotsUpdate (slots_info slots1))])
      | none =>
        ({ st with players := setP uid { p with connected := false, ws := none } st.players },
         [])

/-- External events driving the shared state: a connection opening, one
inbound message handled by a loop whose local variable currently holds
`uid`, or a transport disconnection of the connection owned by `uid`. -/
inductive Event where
  | conn (queryUid : Option String) (wsId : Nat) (freshUid : String)
  | msg (uid : String) (wsId : Nat) (req : Req)
  | disc (uid : String)
  deriving Repr, DecidableEq

/-- Effect of one event on the shared state. -/
def stepState (st : ServerState) (e : Event) : ServerState :=
  match e with
  | .conn q w f => (connectStep q w f st).1
  | .msg u w r => (handleMessage u w r st).st
  | .disc u => (disconnectStep u st).1

/-- Side condition on a `conn` event with no supplied uid: the minted
`uuid.uuid4()` value is fresh, i.e. not a registered identity. -/
def freshOk (st : ServerState) (e : Event) : Prop :=
  match e with
  | .conn none _ f => lookupP f st.players = none
  | _ => True

/-- States reachable from the initial state by any event sequence (with
fresh uuids on mint). -/
inductive Reachable : ServerState → Prop
  | init : Reachable initState
  | step {st : ServerState} (e : Event) : Reachable st → freshOk st e →
      Reachable (stepState st e)

/-- Multi-step relation: `st` evolves to a later state by any events (no
side conditions; a superset of real continuations, so universal statements
over it are only stronger). -/
inductive Steps : ServerState → ServerState → Prop
  | refl (st : ServerState) : Steps st st
  | tail {st st1 : ServerState} (e : Event) : Steps st st1 → Steps st (stepState st1 e)

/-- Bidirectional agreement of the slot table and the player records
(spec invariant): every table position holds an identity whose record points
back at that position, and every record pointing at a position actually
occupies it.  Together these give the "set iff it appears at exactly that
position" reading: a record with `slot_idx = none` can appear at no
position. -/
def slotAgreement (st : ServerState) : Prop :=
  (∀ i u, st.slots[i]? = some u →
    ∃ p, lookupP u st.players = some p ∧ p.slot_idx = some i) ∧
  (∀ u p i, lookupP u st.players = some p → p.slot_idx = some i →
    st.slots[i]? = some u)

/-- Side condition singling out the one operation that breaks the agreement
of table and records: an ENTER_SPECTATE request handled for an identity that
currently holds a slot. -/
def specOk (st : ServerState) (e : Event) : Prop :=
  match e with
  | .msg u _ .enterSpectate =>
    match lookupP u st.players with
    | some p => p.slot_idx = none
    | none => True
  | _ => True

/-- States reachable when no slot-holding player ever issues an
ENTER_SPECTATE request (fresh uuids on mint as in `Reachable`). -/
inductive ReachableSafe : ServerState → Prop
  | init : ReachableSafe initState
  | step {st : ServerState} (e : Event) : ReachableSafe st → freshOk st e →
      specOk st e → ReachableSafe (stepState st e)

/-! ### Association-list and renumbering lemmas -/

theorem lookupP_setP_self (u : String) (v : Player) (ps : List (String × Player)) :
    lookupP u (setP u v ps) = some v := by
  induction ps with
  | nil => simp [setP, lookupP]
  | cons kv rest ih =>
    obtain ⟨k, w⟩ := kv
    by_cases h : k = u <;> simp [setP, lookupP, h, ih]

theorem lookupP_setP_ne {x u : String} (h : x ≠ u) (v : Player)
    (ps : List (String × Player)) :
    lookupP x (setP u v ps) = lookupP x ps := by
  induction ps with
  | nil =>
    have hux : ¬ u = x := fun hh => h hh.symm
    simp [setP, lookupP, hux]
  | cons kv rest ih =>
    obtain ⟨k, w⟩ := kv
    by_cases hk : k = u
    · subst hk
      have hkx : ¬ k = x := fun hh => h hh.symm
      simp [setP, lookupP, hkx]
    · simp [setP, lookupP, hk, ih]

theorem lookupP_renumberFrom_not_mem {u : String} {slots : List String}
    (h : u ∉ slots) (ps : List (String × Player)) (start : Nat) :
    lookupP u (renumberFrom ps start slots) = lookupP u ps := by
  induction slots generalizing ps start with
  | nil => rfl
  | cons a rest ih =>
    simp only [List.mem_cons, not_or] at h
    obtain ⟨hne, hrest⟩ := h
    cases hq : lookupP a ps with
    | none => simpa [renumberFrom, hq] using ih hrest ps (start + 1)
    | some q =>
      rw [renumberFrom, hq, ih hrest, lookupP_setP_ne hne]

theorem lookupP_renumberFrom_none {u : String} {ps : List (String × Player)}
    (h : lookupP u ps = none) (slots : List String) (start : Nat) :
    lookupP u (renumberFrom ps start slots) = none := by
  induction slots generalizing ps start with
  | nil => exact h
  | cons a rest ih =>
    cases hq : lookupP a ps with
    | none => simpa [renumberFrom, hq] using ih h (start + 1)
    | some q =>
      have hne : u ≠ a := by
        rintro rfl; rw [h] at hq; exact Option.noConfusion hq
      rw [renumberFrom, hq]
      exact ih (by rw [lookupP_setP_ne hne, h]) (start + 1)

theorem lookupP_renumberFrom_mem {slots : List String} (hnd : slots.Nodup)
    {j : Nat} {u : String} (hj : slots[j]? = some u)
    {ps : List (String × Player)} {q : Player} (hq : lookupP u ps = some q)
    (start : Nat) :
    lookupP u (renumberFrom ps start slots) =
      some { q with slot_idx := some (start + j) } := by
  induction slots generalizing j ps q start with
  | nil => simp at hj
  | cons a rest ih =>
    have hnd1 : rest.Nodup := (List.nodup_cons.mp hnd).2
    have hna : a ∉ rest := (List.nodup_cons.mp hnd).1
    cases j with
    | zero =>
      simp only [List.getElem?_cons_zero, Option.some.injEq] at hj
      subst hj
      rw [renumberFrom, hq, lookupP_renumberFrom_not_mem hna, lookupP_setP_self]
      simp
    | succ j1 =>
      simp only [List.getElem?_cons_succ] at hj
      have hmem : u ∈ rest := by
        have := List.getElem?_eq_some.mp hj
        obtain ⟨hlt, hget⟩ := this
        exact hget ▸ List.getElem_mem hlt
      have hne : u ≠ a := by rintro rfl; exact hna hmem
      have harith : start + 1 + j1 = start + (j1 + 1) := by omega
      cases hqa : lookupP a ps with
      | none =>
        rw [renumberFrom, hqa, ih hnd1 hj hq (start + 1), harith]
      | some qa =>
        rw [renumberFrom, hqa,
          ih hnd1 hj (by rw [lookupP_setP_ne hne, hq]) (start + 1), harith]

theorem lookupP_renumber_not_mem {u : String} {slots : List String}
    (h : u ∉ slots) (ps : List (String × Player)) :
    lookupP u (renumber ps slots) = lookupP u ps :=
  lookupP_renumberFrom_not_mem h ps 0

theorem lookupP_renumber_mem {slots : List String} (hnd : slots.Nodup)
    {j : Nat} {u : String} (hj : slots[j]? = some u)
    {ps : List (String × Player)} {q : Player} (hq : lookupP u ps = some q) :
    lookupP u (renumber ps slots) = some { q with slot_idx := some j } := by
  have := lookupP_renumberFrom_mem hnd hj hq 0
  simpa [renumber] using this

/-! ### Agreement preservation -/

theorem nodup_of_agree {st : ServerState} (h : slotAgreement st) : st.slots.Nodup := by
  rw [List.nodup_iff_injective_get]
  rintro ⟨a, ha⟩ ⟨b, hb⟩ hab
  have h1 : st.slots[a]? = some (st.slots.get ⟨a, ha⟩) := by
    rw [List.getElem?_eq_getElem ha]
    simp [List.get_eq_getElem]
  have h2 : st.slots[b]? = some (st.slots.get ⟨b, hb⟩) := by
    rw [List.getElem?_eq_getElem hb]
    simp [List.get_eq_getElem]
  rw [hab] at h1
  obtain ⟨p1, hp1, hs1⟩ := h.1 a _ h1
  obtain ⟨p2, hp2, hs2⟩ := h.1 b _ h2
  rw [hp1] at hp2
  injection hp2 with h12
  subst h12
  rw [hs1] at hs2
  injection hs2 with hab2
  exact Fin.ext hab2

/-- Pre-start slot release preserves the agreement: remove position `idx`
(held by `uid`), overwrite the record of `uid` with any record carrying no
slot, and renumber every table occupant to its new position. -/
theorem agree_release
    {players : List (String × Player)} {slots : List String} {gs : Bool}
    (h : slotAgreement ⟨players, slots, gs⟩)
    {uid : String} {p : Player} (hp : lookupP uid players = some p)
    {idx : Nat} (hidx : p.slot_idx = some idx)
    {p1 : Player} (hp1 : p1.slot_idx = none) (gs1 : Bool) :
    slotAgreement ⟨renumber (setP uid p1 players) (slots.eraseIdx idx),
      slots.eraseIdx idx, gs1⟩ := by
  have hnd : slots.Nodup := nodup_of_agree h
  have huid : slots[idx]? = some uid := h.2 uid p idx hp hidx
  have hnd1 : (slots.eraseIdx idx).Nodup := (slots.eraseIdx_sublist idx).nodup hnd
  have huidpos : ∀ j : Nat, slots[j]? = some uid → j = idx := by
    intro j hj
    obtain ⟨pj, hpj, hsj⟩ := h.1 j uid hj
    rw [hp] at hpj
    injection hpj with e
    subst e
    rw [hidx] at hsj
    injection hsj with e
    omega
  have hnm : uid ∉ slots.eraseIdx idx := by
    intro hmem
    obtain ⟨j, hj⟩ := List.mem_iff_getElem?.mp hmem
    rw [List.getElem?_eraseIdx] at hj
    by_cases hji : j < idx
    · rw [if_pos hji] at hj
      have := huidpos j hj
      omega
    · rw [if_neg hji] at hj
      have := huidpos (j + 1) hj
      omega
  have hbase : ∀ (j : Nat) (u : String), (slots.eraseIdx idx)[j]? = some u →
      ∃ q, lookupP u players = some q := by
    intro j u hj
    rw [List.getElem?_eraseIdx] at hj
    by_cases hji : j < idx
    · rw [if_pos hji] at hj
      obtain ⟨q, hq, _⟩ := h.1 j u hj
      exact ⟨q, hq⟩
    · rw [if_neg hji] at hj
      obtain ⟨q, hq, _⟩ := h.1 (j + 1) u hj
      exact ⟨q, hq⟩
  constructor
  · intro j u hj
    have hmem : u ∈ slots.eraseIdx idx := List.mem_iff_getElem?.mpr ⟨j, hj⟩
    have hne : u ≠ uid := fun e => hnm (e ▸ hmem)
    obtain ⟨q, hq⟩ := hbase j u hj
    have hl : lookupP u (setP uid p1 players) = some q := by
      rw [lookupP_setP_ne hne]
      exact hq
    refine ⟨{ q with slot_idx := some j }, ?_, rfl⟩
    exact lookupP_renumber_mem hnd1 hj hl
  · intro u r j hr hrj
    by_cases hmem : u ∈ slots.eraseIdx idx
    · obtain ⟨j0, hj0⟩ := List.mem_iff_getElem?.mp hmem
      have hne : u ≠ uid := fun e => hnm (e ▸ hmem)
      obtain ⟨q, hq⟩ := hbase j0 u hj0
      have hl : lookupP u (setP uid p1 players) = some q := by
        rw [lookupP_setP_ne hne]
        exact hq
      rw [lookupP_renumber_mem hnd1 hj0 hl] at hr
      injection hr with e
      subst e
      simp only at hrj
      injection hrj with e
      subst e
      exact hj0
    · rw [lookupP_renumber_not_mem hmem] at hr
      by_cases he : u = uid
      · subst he
        rw [lookupP_setP_self] at hr
        injection hr with e
        subst e
        rw [hp1] at hrj
        exact Option.noConfusion hrj
      · rw [lookupP_setP_ne he] at hr
        have hj := h.2 u r j hr hrj
        by_cases hji : j = idx
        · subst hji
          rw [huid] at hj
          injection hj with e
          exact absurd e.symm he
        · exfalso
          apply hmem
          by_cases hlt : j < idx
          · refine List.mem_iff_getElem?.mpr ⟨j, ?_⟩
            rw [List.getElem?_eraseIdx, if_pos hlt]
            exact hj
          · refine List.mem_iff_getElem?.mpr ⟨j - 1, ?_⟩
            rw [List.getElem?_eraseIdx, if_neg (by omega)]
            have hj1 : j - 1 + 1 = j := by omega
            rw [hj1]
            exact hj

/-! ### Branch equations for the message handler -/

theorem handleMessage_known {uid : String} {st0 : ServerState} {p : Player}
    (hp : lookupP uid st0.players = some p) (wsId : Nat) (req : Req) :
    handleMessage uid wsId req st0 = handleCore uid req st0 p := by
  simp [handleMessage, hp]

theorem handleMessage_fresh {uid : String} {st0 : ServerState}
    (hp : lookupP uid st0.players = none) (wsId : Nat) (req : Req) :
    handleMessage uid wsId req st0 =
      handleCore uid req
        { st0 with players := register_player uid (some wsId) true false false none st0.players }
        { ws := some wsId, connected := true, in_game_area := false,
          in_watch_area := false, slot_idx := none } := by
  simp [handleMessage, hp]

theorem handleCore_ping (uid : String) (st : ServerState) (p : Player) :
    handleCore uid .ping st p =
      { st := st, out := [.toConn .pong], uid := uid, err := false } := rfl

theorem handleCore_spectate (uid : String) (st : ServerState) (p : Player) :
    handleCore uid .enterSpectate st p =
      { st := { st with players := setP uid { p with in_game_area := false, in_watch_area := true, slot_idx := none } st.players },
        out := [.toConn .enteredSpectate], uid := uid, err := false } := rfl

theorem handleCore_unknown (uid : String) (st : ServerState) (p : Player) (raw : String) :
    handleCore uid (.unknown raw) st p =
      { st := st, out := [.toConn (.echo raw)], uid := uid, err := false } := rfl

theorem handleCore_enterGame_started_slot {st : ServerState}
    (hg : st.game_started = true) {p : Player} {i : Nat}
    (hs : p.slot_idx = some i) (uid : String) :
    handleCore uid .enterGame st p =
      { st := { st with players := setP uid { p with in_game_area := true, in_watch_area := false } st.players },
        out := [.toConn (.joined (slot_label i))], uid := uid, err := false } := by
  simp [handleCore, hg, hs]

theorem handleCore_enterGame_started_none {st : ServerState}
    (hg : st.game_started = true) {p : Player}
    (hs : p.slot_idx = none) (uid : String) :
    handleCore uid .enterGame st p =
      { st := { st with players := setP uid { p with in_game_area := false, in_watch_area := true, slot_idx := none } st.players },
        out := [.toConn .onlySpectator], uid := uid, err := false } := by
  simp [handleCore, hg, hs]

theorem handleCore_enterGame_lobby_slot {st : ServerState}
    (hg : st.game_started = false) {p : Player} {i : Nat}
    (hs : p.slot_idx = some i) (uid : String) :
    handleCore uid .enterGame st p =
      { st := { st with players := setP uid { p with in_game_area := true, in_watch_area := false } st.players },
        out := [.toConn (.joined (slot_label i))], uid := uid, err := false } := by
  simp [handleCore, hg, hs]

theorem handleCore_enterGame_lobby_none {st : ServerState}
    (hg : st.game_started = false) {p : Player}
    (hs : p.slot_idx = none) (uid : String) :
    handleCore uid .enterGame st p =
      { st := { st with slots := st.slots ++ [uid], players := setP uid { p with slot_idx := some st.slots.length, in_game_area := true, in_watch_area := false } st.players },
        out := [.toConn (.joined (slot_label st.slots.length)),
                .toAll (.slotsUpdate (slots_info (st.slots ++ [uid])))],
        uid := uid, err := false } := by
  simp [handleCore, hg, hs]

theorem handleCore_leaveGame_post {st : ServerState}
    (hg : st.game_started = true) {p : Player} {idx : Nat}
    (harea : p.in_game_area = true) (hs : p.slot_idx = some idx) (uid : String) :
    handleCore uid .leaveGame st p =
      { st := { st with players := setP uid { p with in_game_area := false, connected := false, ws := none } st.players },
        out := [.toAll (.playerLeft uid)], uid := uid, err := false } := by
  simp [handleCore, hg, hs, harea]

theorem handleCore_leaveGame_pre {st : ServerState}
    (hg : st.game_started = false) {p : Player} {idx : Nat}
    (harea : p.in_game_area = true) (hs : p.slot_idx = some idx) (uid : String) :
    handleCore uid .leaveGame st p =
      { st := { st with slots := st.slots.eraseIdx idx, players := renumber (setP uid { p with slot_idx := none, in_game_area := false } st.players) (st.slots.eraseIdx idx) },
        out := [.toAll (.slotsUpdate (slots_info (st.slots.eraseIdx idx)))],
        uid := ((st.slots.eraseIdx idx).getLast?).getD uid,
        err := false } := by
  simp only [handleCore, hg, hs, harea]
  rw [if_neg (by simp)]
  cases (st.slots.eraseIdx idx).getLast? <;> rfl

theorem handleCore_leaveGame_notInArea {st : ServerState} {p : Player}
    (harea : p.in_game_area = false) (uid : String) :
    handleCore uid .leaveGame st p =
      { st := { st with players := setP uid { p with in_game_area := false } st.players },
        out := [], uid := uid, err := false } := by
  simp [handleCore, harea]

theorem handleCore_leaveGame_noSlot {st : ServerState} {p : Player}
    (hs : p.slot_idx = none) (uid : String) :
    handleCore uid .leaveGame st p =
      { st := { st with players := setP uid { p with in_game_area := false } st.players },
        out := [], uid := uid, err := false } := by
  cases harea : p.in_game_area <;> simp [handleCore, harea, hs]

theorem handleCore_start_ok {st : ServerState} {p : Player}
    (h0 : p.slot_idx = some 0) (harea : p.in_game_area = true)
    (hg : st.game_started = false) (uid : String) :
    handleCore uid .start st p =
      { st := { st with game_started := true }, out := [], uid := uid, err := true } := by
  simp [handleCore, h0, harea, hg]

theorem handleCore_start_denied {st : ServerState} {p : Player}
    (h : ¬ (p.slot_idx = some 0 ∧ p.in_game_area = true ∧ st.game_started = false))
    (uid : String) :
    handleCore uid .start st p =
      { st := st, out := [.toConn .startDenied], uid := uid, err := false } := by
  simp only [handleCore, if_neg h]


/-! ### Per-operation agreement preservation -/

theorem agree_register_fresh {st : ServerState} (h : slotAgreement st)
    {uid : String} (hu : lookupP uid st.players = none) (ws : Option Nat)
    (c g w : Bool) :
    slotAgreement { st with players := register_player uid ws c g w none st.players } := by
  constructor
  · intro i u hi
    obtain ⟨q, hq, hqs⟩ := h.1 i u hi
    have hne : u ≠ uid := by
      rintro rfl
      rw [hu] at hq
      exact Option.noConfusion hq
    refine ⟨q, ?_, hqs⟩
    rw [register_player, lookupP_setP_ne hne]
    exact hq
  · intro u r i hr hri
    by_cases he : u = uid
    · subst he
      rw [register_player, lookupP_setP_self] at hr
      injection hr with e
      subst e
      simp at hri
    · rw [register_player, lookupP_setP_ne he] at hr
      exact h.2 u r i hr hri

theorem agree_update_keep {st : ServerState} (h : slotAgreement st)
    {uid : String} {p : Player} (hp : lookupP uid st.players = some p)
    {p1 : Player} (hs : p1.slot_idx = p.slot_idx) :
    slotAgreement { st with players := setP uid p1 st.players } := by
  constructor
  · intro i u hi
    obtain ⟨q, hq, hqs⟩ := h.1 i u hi
    by_cases he : u = uid
    · subst he
      rw [hp] at hq
      injection hq with e
      subst e
      exact ⟨p1, by rw [lookupP_setP_self], by rw [hs]; exact hqs⟩
    · exact ⟨q, by rw [lookupP_setP_ne he]; exact hq, hqs⟩
  · intro u r i hr hri
    by_cases he : u = uid
    · subst he
      rw [lookupP_setP_self] at hr
      injection hr with e
      subst e
      exact h.2 _ p i hp (by rw [← hs]; exact hri)
    · rw [lookupP_setP_ne he] at hr
      exact h.2 u r i hr hri

theorem agree_acquire {st : ServerState} (h : slotAgreement st)
    {uid : String} {p : Player} (hp : lookupP uid st.players = some p)
    (hslot : p.slot_idx = none) {p1 : Player}
    (hs : p1.slot_idx = some st.slots.length) :
    slotAgreement { st with slots := st.slots ++ [uid], players := setP uid p1 st.players } := by
  have hnm : uid ∉ st.slots := by
    intro hmem
    obtain ⟨j, hj⟩ := List.mem_iff_getElem?.mp hmem
    obtain ⟨q, hq, hqs⟩ := h.1 j uid hj
    rw [hp] at hq
    injection hq with e
    subst e
    rw [hslot] at hqs
    exact Option.noConfusion hqs
  constructor
  · intro i u hi
    rw [List.getElem?_append] at hi
    by_cases hlt : i < st.slots.length
    · rw [if_pos hlt] at hi
      obtain ⟨q, hq, hqs⟩ := h.1 i u hi
      have hne : u ≠ uid := by
        rintro rfl
        exact hnm (List.mem_iff_getElem?.mpr ⟨i, hi⟩)
      exact ⟨q, by rw [lookupP_setP_ne hne]; exact hq, hqs⟩
    · rw [if_neg hlt] at hi
      cases hk : i - st.slots.length with
      | zero =>
        rw [hk] at hi
        simp only [List.getElem?_cons_zero, Option.some.injEq] at hi
        subst hi
        have hieq : i = st.slots.length := by omega
        exact ⟨p1, by rw [lookupP_setP_self], by rw [hs, hieq]⟩
      | succ k =>
        rw [hk] at hi
        simp at hi
  · intro u r i hr hri
    by_cases he : u = uid
    · subst he
      rw [lookupP_setP_self] at hr
      injection hr with e
      subst e
      rw [hs] at hri
      injection hri with e
      subst e
      rw [List.getElem?_append, if_neg (by omega)]
      simp
    · rw [lookupP_setP_ne he] at hr
      have hj := h.2 u r i hr hri
      have hlt : i < st.slots.length := by
        rcases List.getElem?_eq_some.mp hj with ⟨hl, _⟩
        exact hl
      rw [List.getElem?_append, if_pos hlt]
      exact hj


theorem agree_handleCore {st : ServerState} (h : slotAgreement st)
    {uid : String} {p : Player} (hp : lookupP uid st.players = some p)
    (req : Req) (hspec : req = .enterSpectate → p.slot_idx = none) :
    slotAgreement (handleCore uid req st p).st := by
  cases req with
  | ping =>
    rw [handleCore_ping]
    exact h
  | unknown raw =>
    rw [handleCore_unknown]
    exact h
  | enterSpectate =>
    have hs := hspec rfl
    rw [handleCore_spectate]
    exact agree_update_keep h hp (by simp [hs])
  | enterGame =>
    cases hg : st.game_started with
    | true =>
      cases hs : p.slot_idx with
      | some i =>
        rw [handleCore_enterGame_started_slot hg hs]
        exact agree_update_keep h hp rfl
      | none =>
        rw [handleCore_enterGame_started_none hg hs]
        exact agree_update_keep h hp (by simp [hs])
    | false =>
      cases hs : p.slot_idx with
      | some i =>
        rw [handleCore_enterGame_lobby_slot hg hs]
        exact agree_update_keep h hp rfl
      | none =>
        rw [handleCore_enterGame_lobby_none hg hs]
        exact agree_acquire h hp hs rfl
  | leaveGame =>
    cases harea : p.in_game_area with
    | false =>
      rw [handleCore_leaveGame_notInArea harea]
      exact agree_update_keep h hp rfl
    | true =>
      cases hs : p.slot_idx with
      | none =>
        rw [handleCore_leaveGame_noSlot hs]
        exact agree_update_keep h hp rfl
      | some idx =>
        cases hg : st.game_started with
        | true =>
          rw [handleCore_leaveGame_post hg harea hs]
          exact agree_update_keep h hp rfl
        | false =>
          rw [handleCore_leaveGame_pre hg harea hs]
          exact agree_release h hp hs rfl _
  | start =>
    by_cases hc : p.slot_idx = some 0 ∧ p.in_game_area = true ∧ st.game_started = false
    · obtain ⟨h0, harea, hg⟩ := hc
      rw [handleCore_start_ok h0 harea hg]
      exact h
    · rw [handleCore_start_denied hc]
      exact h

theorem agree_handleMessage {st : ServerState} (h : slotAgreement st)
    (uid : String) (wsId : Nat) (req : Req)
    (hspec : ∀ p, lookupP uid st.players = some p → req = .enterSpectate →
      p.slot_idx = none) :
    slotAgreement (handleMessage uid wsId req st).st := by
  cases hp : lookupP uid st.players with
  | some p =>
    rw [handleMessage_known hp]
    exact agree_handleCore h hp req (hspec p hp)
  | none =>
    rw [handleMessage_fresh hp]
    have h1 := agree_register_fresh h hp (some wsId) true false false
    have hp1 : lookupP uid
        (register_player uid (some wsId) true false false none st.players) =
        some { ws := some wsId, connected := true, in_game_area := false,
               in_watch_area := false, slot_idx := none } := by
      rw [register_player, lookupP_setP_self]
    exact agree_handleCore h1 hp1 req (fun _ => rfl)

theorem agree_connectStep {st : ServerState} (h : slotAgreement st)
    (queryUid : Option String) (wsId : Nat) (freshUid : String)
    (hfresh : queryUid = none → lookupP freshUid st.players = none) :
    slotAgreement (connectStep queryUid wsId freshUid st).1 := by
  cases queryUid with
  | none =>
    simp only [connectStep]
    exact agree_register_fresh h (hfresh rfl) _ _ _ _
  | some uid =>
    cases hp : lookupP uid st.players with
    | none =>
      simp only [connectStep, hp]
      exact agree_register_fresh h hp _ _ _ _
    | some p =>
      simp only [connectStep, hp]
      exact agree_update_keep h hp rfl

theorem agree_disconnectStep {st : ServerState} (h : slotAgreement st)
    (uid : String) : slotAgreement (disconnectStep uid st).1 := by
  cases hp : lookupP uid st.players with
  | none => simpa [disconnectStep, hp] using h
  | some p =>
    cases hg : st.game_started with
    | true =>
      simp only [disconnectStep, hp, hg, if_true]
      exact agree_update_keep h hp rfl
    | false =>
      cases hs : p.slot_idx with
      | some idx =>
        simp only [disconnectStep, hp, hg, hs, Bool.false_eq_true, if_false]
        refine agree_release h hp hs ?_ _
        rfl
      | none =>
        simp only [disconnectStep, hp, hg, hs, Bool.false_eq_true, if_false]
        exact agree_update_keep h hp (by simp [hs])

theorem agree_stepState {st : ServerState} (h : slotAgreement st) (e : Event)
    (hf : freshOk st e) (hsp : specOk st e) : slotAgreement (stepState st e) := by
  cases e with
  | conn q w f =>
    exact agree_connectStep h q w f (fun hq => by subst hq; exact hf)
  | msg u w r =>
    refine agree_handleMessage h u w r ?_
    intro p hp hr
    subst hr
    simpa [specOk, hp] using hsp
  | disc u => exact agree_disconnectStep h u

theorem agree_initState : slotAgreement initState := by
  constructor
  · intro i u hi
    simp [initState] at hi
  · intro u p i hp hpi
    simp [initState, lookupP] at hp


/-! ### Post-start frame lemmas -/

theorem connectStep_game_started (q : Option String) (w : Nat) (f : String)
    (st : ServerState) :
    ((connectStep q w f st).1).game_started = st.game_started := by
  cases q with
  | none => rfl
  | some uid => cases hp : lookupP uid st.players <;> simp [connectStep, hp]

theorem connectStep_slots (q : Option String) (w : Nat) (f : String)
    (st : ServerState) : ((connectStep q w f st).1).slots = st.slots := by
  cases q with
  | none => rfl
  | some uid => cases hp : lookupP uid st.players <;> simp [connectStep, hp]

theorem handleCore_post_frame (st : ServerState) (h : st.game_started = true)
    (uid : String) (req : Req) (p : Player) :
    ((handleCore uid req st p).st).game_started = true ∧
    ((handleCore uid req st p).st).slots = st.slots := by
  cases req with
  | ping => exact ⟨h, rfl⟩
  | unknown raw => exact ⟨h, rfl⟩
  | enterSpectate =>
    rw [handleCore_spectate]
    exact ⟨h, rfl⟩
  | enterGame =>
    cases hs : p.slot_idx with
    | some i =>
      rw [handleCore_enterGame_started_slot h hs]
      exact ⟨h, rfl⟩
    | none =>
      rw [handleCore_enterGame_started_none h hs]
      exact ⟨h, rfl⟩
  | leaveGame =>
    cases harea : p.in_game_area with
    | false =>
      rw [handleCore_leaveGame_notInArea harea]
      exact ⟨h, rfl⟩
    | true =>
      cases hs : p.slot_idx with
      | none =>
        rw [handleCore_leaveGame_noSlot hs]
        exact ⟨h, rfl⟩
      | some idx =>
        rw [handleCore_leaveGame_post h harea hs]
        exact ⟨h, rfl⟩
  | start =>
    by_cases hc : p.slot_idx = some 0 ∧ p.in_game_area = true ∧ st.game_started = false
    · obtain ⟨-, -, hg⟩ := hc
      rw [h] at hg
      exact absurd hg (by simp)
    · rw [handleCore_start_denied hc]
      exact ⟨h, rfl⟩

theorem disconnectStep_post_frame {st : ServerState} (h : st.game_started = true)
    (uid : String) :
    ((disconnectStep uid st).1).game_started = true ∧
    ((disconnectStep uid st).1).slots = st.slots := by
  cases hp : lookupP uid st.players with
  | none => simpa [disconnectStep, hp] using h
  | some p => simp [disconnectStep, hp, h]

theorem stepState_game_started_mono {st : ServerState} (e : Event)
    (h : st.game_started = true) : (stepState st e).game_started = true := by
  cases e with
  | conn q w f =>
    rw [stepState, connectStep_game_started]
    exact h
  | msg u w r =>
    rw [stepState]
    cases hp : lookupP u st.players with
    | some p =>
      rw [handleMessage_known hp]
      exact (handleCore_post_frame _ h u r p).1
    | none =>
      rw [handleMessage_fresh hp]
      refine (handleCore_post_frame _ ?_ u r _).1
      exact h
  | disc u =>
    rw [stepState]
    exact (disconnectStep_post_frame h u).1

theorem stepState_slots_frozen {st : ServerState} (e : Event)
    (h : st.game_started = true) : (stepState st e).slots = st.slots := by
  cases e with
  | conn q w f => exact connectStep_slots q w f st
  | msg u w r =>
    rw [stepState]
    cases hp : lookupP u st.players with
    | some p =>
      rw [handleMessage_known hp]
      exact (handleCore_post_frame _ h u r p).2
    | none =>
      rw [handleMessage_fresh hp]
      refine (handleCore_post_frame _ ?_ u r _).2
      exact h
  | disc u =>
    rw [stepState]
    exact (disconnectStep_post_frame h u).2

theorem steps_game_started_mono {st st1 : ServerState} (hs : Steps st st1)
    (h : st.game_started = true) : st1.game_started = true := by
  induction hs with
  | refl => exact h
  | tail e hsteps ih => exact stepState_game_started_mono e ih

theorem steps_slots_frozen {st st1 : ServerState} (hs : Steps st st1)
    (h : st.game_started = true) : st1.slots = st.slots := by
  induction hs with
  | refl => rfl
  | tail e hsteps ih =>
    rw [stepState_slots_frozen e (steps_game_started_mono hsteps h), ih]

theorem handleCore_other_post (st : ServerState) (hg : st.game_started = true)
    {v : String} (pv : Player) (r : Req) {u : String} (hne : u ≠ v)
    {p : Player} (hp : lookupP u st.players = some p) :
    lookupP u ((handleCore v r st pv).st).players = some p := by
  cases r with
  | ping => exact hp
  | unknown raw => exact hp
  | enterSpectate =>
    rw [handleCore_spectate]
    simpa [lookupP_setP_ne hne] using hp
  | enterGame =>
    cases hs : pv.slot_idx with
    | some i =>
      rw [handleCore_enterGame_started_slot hg hs]
      simpa [lookupP_setP_ne hne] using hp
    | none =>
      rw [handleCore_enterGame_started_none hg hs]
      simpa [lookupP_setP_ne hne] using hp
  | leaveGame =>
    cases harea : pv.in_game_area with
    | false =>
      rw [handleCore_leaveGame_notInArea harea]
      simpa [lookupP_setP_ne hne] using hp
    | true =>
      cases hs : pv.slot_idx with
      | none =>
        rw [handleCore_leaveGame_noSlot hs]
        simpa [lookupP_setP_ne hne] using hp
      | some idx =>
        rw [handleCore_leaveGame_post hg harea hs]
        simpa [lookupP_setP_ne hne] using hp
  | start =>
    by_cases hc : pv.slot_idx = some 0 ∧ pv.in_game_area = true ∧ st.game_started = false
    · obtain ⟨-, -, hgf⟩ := hc
      rw [hg] at hgf
      exact absurd hgf (by simp)
    · rw [handleCore_start_denied hc]
      exact hp

theorem handleCore_self_slotNone_post {st : ServerState} (hg : st.game_started = true)
    {u : String} {p : Player} (hp : lookupP u st.players = some p)
    (hs : p.slot_idx = none) (r : Req) :
    ∃ q, lookupP u ((handleCore u r st p).st).players = some q ∧
      q.slot_idx = none := by
  cases r with
  | ping => exact ⟨p, hp, hs⟩
  | unknown raw => exact ⟨p, hp, hs⟩
  | enterSpectate =>
    rw [handleCore_spectate]
    exact ⟨_, lookupP_setP_self _ _ _, rfl⟩
  | enterGame =>
    rw [handleCore_enterGame_started_none hg hs]
    exact ⟨_, lookupP_setP_self _ _ _, rfl⟩
  | leaveGame =>
    cases harea : p.in_game_area with
    | false =>
      rw [handleCore_leaveGame_notInArea harea]
      exact ⟨_, lookupP_setP_self _ _ _, hs⟩
    | true =>
      rw [handleCore_leaveGame_noSlot hs]
      exact ⟨_, lookupP_setP_self _ _ _, hs⟩
  | start =>
    have hc : ¬ (p.slot_idx = some 0 ∧ p.in_game_area = true ∧ st.game_started = false) := by
      rintro ⟨h0, -, -⟩
      rw [hs] at h0
      exact Option.noConfusion h0
    rw [handleCore_start_denied hc]
    exact ⟨p, hp, hs⟩

theorem stepState_slotNone {st : ServerState} (e : Event)
    (hg : st.game_started = true) {u : String} {p : Player}
    (hp : lookupP u st.players = some p) (hs : p.slot_idx = none) :
    ∃ q, lookupP u (stepState st e).players = some q ∧ q.slot_idx = none := by
  cases e with
  | conn q w f =>
    rw [stepState]
    cases q with
    | none =>
      by_cases he : u = f
      · subst he
        simp only [connectStep]
        exact ⟨_, by rw [register_player, lookupP_setP_self], rfl⟩
      · simp only [connectStep]
        exact ⟨p, by rw [register_player, lookupP_setP_ne he]; exact hp, hs⟩
    | some v =>
      cases hv : lookupP v st.players with
      | none =>
        by_cases he : u = v
        · subst he
          rw [hp] at hv
          exact Option.noConfusion hv
        · simp only [connectStep, hv]
          exact ⟨p, by rw [register_player, lookupP_setP_ne he]; exact hp, hs⟩
      | some pv =>
        by_cases he : u = v
        · subst he
          rw [hp] at hv
          injection hv with e1
          subst e1
          simp only [connectStep, hp]
          exact ⟨_, lookupP_setP_self _ _ _, hs⟩
        · simp only [connectStep, hv]
          exact ⟨p, by rw [lookupP_setP_ne he]; exact hp, hs⟩
  | msg v w r =>
    rw [stepState]
    cases hv : lookupP v st.players with
    | none =>
      have he : u ≠ v := by
        rintro rfl
        rw [hp] at hv
        exact Option.noConfusion hv
      rw [handleMessage_fresh hv]
      refine ⟨p, ?_, hs⟩
      refine handleCore_other_post _ ?_ _ r he ?_
      · exact hg
      · rw [register_player, lookupP_setP_ne he]
        exact hp
    | some pv =>
      rw [handleMessage_known hv]
      by_cases he : u = v
      · subst he
        rw [hp] at hv
        injection hv with e1
        subst e1
        exact handleCore_self_slotNone_post hg hp hs r
      · exact ⟨p, handleCore_other_post _ hg pv r he hp, hs⟩
  | disc v =>
    rw [stepState]
    cases hv : lookupP v st.players with
    | none => simpa [disconnectStep, hv] using ⟨p, hp, hs⟩
    | some pv =>
      by_cases he : u = v
      · subst he
        rw [hp] at hv
        injection hv with e1
        subst e1
        simp only [disconnectStep, hp, hg, if_true]
        exact ⟨_, lookupP_setP_self _ _ _, hs⟩
      · simp only [disconnectStep, hv, hg, if_true]
        exact ⟨p, by rw [lookupP_setP_ne he]; exact hp, hs⟩

theorem steps_slotNone {st st1 : ServerState} (hsteps : Steps st st1)
    (hg : st.game_started = true) {u : String} {p : Player}
    (hp : lookupP u st.players = some p) (hs : p.slot_idx = none) :
    ∃ q, lookupP u st1.players = some q ∧ q.slot_idx = none := by
  induction hsteps with
  | refl => exact ⟨p, hp, hs⟩
  | tail e hst ih =>
    obtain ⟨q, hq, hqs⟩ := ih
    exact stepState_slotNone e (steps_game_started_mono hst hg) hq hqs


/-! ### Concrete states used by the claim theorems -/

/-- Record of identity A: connected on handle 1, in the game area, slot 0. -/
def recA : Player :=
  { ws := some 1, connected := true, in_game_area := true, in_watch_area := false,
    slot_idx := some 0 }

/-- Record of identity B: connected on handle 2, in the game area, slot 1. -/
def recB : Player :=
  { ws := some 2, connected := true, in_game_area := true, in_watch_area := false,
    slot_idx := some 1 }

/-- Pre-start lobby with A alone holding slot 0. -/
def stA1 : ServerState :=
  { players := [("A", recA)], slots := ["A"], game_started := false }

/-- Pre-start lobby with A at slot 0 and B at slot 1, both in the game area. -/
def stAB : ServerState :=
  { players := [("A", recA), ("B", recB)], slots := ["A", "B"], game_started := false }

/-- Record of a reconnected post-start spectator-side B: disconnected stale
handle, no slot. -/
def recSB : Player :=
  { ws := some 2, connected := false, in_game_area := false, in_watch_area := true,
    slot_idx := none }

/-- In-progress session: A holds slot 0 in the game area, B is slotless. -/
def stStartedAB : ServerState :=
  { players := [("A", recA), ("B", recSB)], slots := ["A"], game_started := true }

/-- Post-start record of A after leaving and reconnecting: live handle 3, out
of the game area, slot 0 retained. -/
def recC7 : Player :=
  { ws := some 3, connected := true, in_game_area := false, in_watch_area := false,
    slot_idx := some 0 }

/-- In-progress session in which slot-holder A is connected but not in the
game area. -/
def stC7 : ServerState :=
  { players := [("A", recC7)], slots := ["A"], game_started := true }

theorem reachable_of_safe {st : ServerState} (h : ReachableSafe st) : Reachable st := by
  induction h with
  | init => exact Reachable.init
  | step e hr hf hs ih => exact Reachable.step e ih hf

theorem stA1_reachableSafe : ReachableSafe stA1 := by
  have h : stA1 =
      stepState (stepState initState (.conn none 1 "A")) (.msg "A" 1 .enterGame) := by
    decide
  rw [h]
  exact ReachableSafe.step _
    (ReachableSafe.step _ ReachableSafe.init rfl trivial) trivial trivial

theorem stAB_reachableSafe : ReachableSafe stAB := by
  have h : stAB =
      stepState (stepState (stepState (stepState initState
        (.conn none 1 "A")) (.msg "A" 1 .enterGame))
        (.conn none 2 "B")) (.msg "B" 2 .enterGame) := by
    decide
  rw [h]
  exact ReachableSafe.step _
    (ReachableSafe.step _
      (ReachableSafe.step _
        (ReachableSafe.step _ ReachableSafe.init rfl trivial)
        trivial trivial)
      rfl trivial)
    trivial trivial

theorem stC7_reachable : Reachable stC7 := by
  have h : stC7 =
      stepState (stepState (stepState (stepState (stepState (stepState initState
        (.conn none 1 "A")) (.msg "A" 1 .enterGame)) (.msg "A" 1 .start))
        (.conn (some "A") 2 "F")) (.msg "A" 2 .leaveGame))
        (.conn (some "A") 3 "F") := by
    decide
  rw [h]
  exact Reachable.step _
    (Reachable.step _
      (Reachable.step _
        (Reachable.step _
          (Reachable.step _
            (Reachable.step _ Reachable.init rfl)
            trivial)
          trivial)
        trivial)
      trivial)
    trivial


/-! ### Claim theorems -/

theorem agree_of_reachableSafe {st : ServerState} (h : ReachableSafe st) :
    slotAgreement st := by
  induction h with
  | init => exact agree_initState
  | step e hr hf hsp ih => exact agree_stepState ih e hf hsp

theorem stAB_agree : slotAgreement stAB :=
  agree_of_reachableSafe stAB_reachableSafe

/-- Record of A after spectating away from slot 0: no slot reference. -/
def recSpec : Player :=
  { ws := some 1, connected := true, in_game_area := false, in_watch_area := true,
    slot_idx := none }

/-- Reachable state violating the table/record agreement: A is still listed
at position 0 of the slot table but its record has no slot index. -/
def stSpec : ServerState :=
  { players := [("A", recSpec)], slots := ["A"], game_started := false }

/-- C1, counterexample: the claimed two-directional agreement fails on a
reachable state.  A connects, enters the game (slot 0), then sends
ENTER_SPECTATE: the handler clears the record slot index (line 132) but
leaves the slot table untouched, so slots[0] = A while A.slot_idx is absent
-- the agreement is not preserved by a spectate request from a slot holder. -/
theorem c1_counterexample : Reachable stSpec ∧ ¬ slotAgreement stSpec := by
  constructor
  · have h : stSpec = stepState (stepState (stepState initState
        (.conn none 1 "A")) (.msg "A" 1 .enterGame)) (.msg "A" 1 .enterSpectate) := by
      decide
    rw [h]
    exact Reachable.step _
      (Reachable.step _ (Reachable.step _ Reachable.init rfl) trivial) trivial
  · intro hA
    obtain ⟨q, hq, hqs⟩ := hA.1 0 "A" (by decide)
    have hval : lookupP "A" stSpec.players = some recSpec := by decide
    rw [hval] at hq
    injection hq with e
    subst e
    simp [recSpec] at hqs

/-- C1, amended: in every state reachable while no slot-holding player ever
issues an ENTER_SPECTATE request, the slot table and the player records
agree in both directions, and the agreement is preserved by every operation
(connection open, any inbound request, disconnection), including enter-game
requests; only a spectate request from a current slot holder breaks it. -/
theorem c1_amended {st : ServerState} (h : ReachableSafe st) : slotAgreement st :=
  agree_of_reachableSafe h

/-- Witness for C1 (amended) at the concrete pre-start two-player state. -/
theorem c1_amended_witness : slotAgreement stAB :=
  c1_amended stAB_reachableSafe

/-- C2 (code bug): from the reachable lobby state where A occupies slot 0 in
the game area, a START request from A flips gameStarted to true, but nothing
is broadcast: the success path calls `broadcast` with a single argument
(line 210) while `broadcast` requires three (line 45), so Python raises
TypeError before any send; the claimed game-start notice carrying the slot
count is never emitted and the handler task dies with the flag already set. -/
theorem c2_start_broadcast_crashes :
    Reachable stA1 ∧
    (handleMessage "A" 1 .start stA1).st.game_started = true ∧
    (handleMessage "A" 1 .start stA1).out = [] ∧
    (handleMessage "A" 1 .start stA1).err = true := by
  refine ⟨reachable_of_safe stA1_reachableSafe, ?_, ?_, ?_⟩ <;> decide

/-- C3 (code bug): the pre-start LEAVE_GAME renumbering loop reuses the
handler-local variable `uid` (line 187), so after A releases slot 0 while B
still holds a slot, the loop leaves `uid = "B"`; every later message on A's
connection is then executed on behalf of B -- here a follow-up
ENTER_SPECTATE moves B, not A, into the watch area. -/
theorem c3_handler_identity_switch :
    Reachable stAB ∧
    (handleMessage "A" 1 .leaveGame stAB).uid = "B" ∧
    (handleMessage "A" 1 .leaveGame stAB).uid ≠ "A" ∧
    (lookupP "B" ((handleMessage ((handleMessage "A" 1 .leaveGame stAB).uid) 1
        .enterSpectate ((handleMessage "A" 1 .leaveGame stAB).st)).st).players).map
      Player.in_watch_area = some true ∧
    (lookupP "A" ((handleMessage ((handleMessage "A" 1 .leaveGame stAB).uid) 1
        .enterSpectate ((handleMessage "A" 1 .leaveGame stAB).st)).st).players).map
      Player.in_watch_area = some false := by
  refine ⟨reachable_of_safe stAB_reachableSafe, ?_, ?_, ?_, ?_⟩ <;> decide


/-- C4: pre-start slot release, by LEAVE_GAME from a slotted player in the
game area or by transport disconnection of a slotted player, removes the
identity at its slot index from the table, shifts every later entry down by
one while the renumbering loop rewrites each occupant record to its new
position, and broadcasts a slot listing built exactly from the
post-mutation table. -/
theorem c4_prestart_release {st : ServerState} (h : slotAgreement st)
    (hg : st.game_started = false) {uid : String} {p : Player}
    (hp : lookupP uid st.players = some p) {idx : Nat}
    (hidx : p.slot_idx = some idx) (wsId : Nat) :
    st.slots[idx]? = some uid ∧
    (p.in_game_area = true →
      (handleMessage uid wsId .leaveGame st).st.slots = st.slots.eraseIdx idx ∧
      (∀ j : Nat, j < idx →
        (handleMessage uid wsId .leaveGame st).st.slots[j]? = st.slots[j]?) ∧
      (∀ j : Nat, idx ≤ j →
        (handleMessage uid wsId .leaveGame st).st.slots[j]? = st.slots[j + 1]?) ∧
      (∀ (j : Nat) (u : String),
        (handleMessage uid wsId .leaveGame st).st.slots[j]? = some u →
        ∃ q, lookupP u (handleMessage uid wsId .leaveGame st).st.players = some q ∧
          q.slot_idx = some j) ∧
      (handleMessage uid wsId .leaveGame st).out =
        [.toAll (.slotsUpdate
          (slots_info (handleMessage uid wsId .leaveGame st).st.slots))]) ∧
    ((disconnectStep uid st).1.slots = st.slots.eraseIdx idx ∧
      (∀ (j : Nat) (u : String),
        (disconnectStep uid st).1.slots[j]? = some u →
        ∃ q, lookupP u (disconnectStep uid st).1.players = some q ∧
          q.slot_idx = some j) ∧
      (disconnectStep uid st).2 =
        [.toAll (.slotsUpdate (slots_info (disconnectStep uid st).1.slots))]) := by
  have huid : st.slots[idx]? = some uid := h.2 uid p idx hp hidx
  refine ⟨huid, ?_, ?_⟩
  · intro harea
    rw [handleMessage_known hp, handleCore_leaveGame_pre hg harea hidx]
    have hA : slotAgreement
        ⟨renumber (setP uid { p with slot_idx := none, in_game_area := false }
          st.players) (st.slots.eraseIdx idx), st.slots.eraseIdx idx, st.game_started⟩ :=
      agree_release h hp hidx rfl st.game_started
    refine ⟨rfl, ?_, ?_, ?_, rfl⟩
    · intro j hj
      show (st.slots.eraseIdx idx)[j]? = st.slots[j]?
      rw [List.getElem?_eraseIdx, if_pos hj]
    · intro j hj
      show (st.slots.eraseIdx idx)[j]? = st.slots[j + 1]?
      rw [List.getElem?_eraseIdx, if_neg (by omega)]
    · intro j u hj
      exact hA.1 j u hj
  · have hA : slotAgreement
        ⟨renumber (setP uid { p with connected := false, ws := none, slot_idx := none, in_game_area := false, in_watch_area := false } st.players) (st.slots.eraseIdx idx), st.slots.eraseIdx idx, st.game_started⟩ :=
      agree_release h hp hidx rfl st.game_started
    have hd : disconnectStep uid st =
        ({ st with slots := st.slots.eraseIdx idx, players := renumber (setP uid { p with connected := false, ws := none, slot_idx := none, in_game_area := false, in_watch_area := false } st.players) (st.slots.eraseIdx idx) },
          [.toAll (.slotsUpdate (slots_info (st.slots.eraseIdx idx)))]) := by
      simp [disconnectStep, hp, hg, hidx]
    rw [hd]
    exact ⟨rfl, fun j u hj => hA.1 j u hj, rfl⟩

/-- Witness for C4 at the concrete two-player lobby: A releases slot 0, B is
shifted to slot 0 and the listing broadcast matches the new table. -/
theorem c4_witness :
    stAB.slots[0]? = some "A" ∧
    (handleMessage "A" 1 .leaveGame stAB).st.slots = stAB.slots.eraseIdx 0 ∧
    (handleMessage "A" 1 .leaveGame stAB).out =
      [.toAll (.slotsUpdate (slots_info (handleMessage "A" 1 .leaveGame stAB).st.slots))] ∧
    (disconnectStep "A" stAB).1.slots = stAB.slots.eraseIdx 0 := by
  have h := c4_prestart_release stAB_agree rfl
    (show lookupP "A" stAB.players = some recA by rfl)
    (show recA.slot_idx = some 0 by rfl) 1
  exact ⟨h.1, (h.2.1 rfl).1, (h.2.1 rfl).2.2.2.2, h.2.2.1⟩

/-- C5: a START request from an identity not holding slot 0, or any START
request while the session is already in progress, is answered with a
START_DENIED reply to the requester alone, with no change to players, slots
or gameStarted, no broadcast, and no exception. -/
theorem c5_start_denied {st : ServerState} {uid : String} {p : Player}
    (hp : lookupP uid st.players = some p)
    (h : p.slot_idx ≠ some 0 ∨ st.game_started = true) (wsId : Nat) :
    (handleMessage uid wsId .start st).st = st ∧
    (handleMessage uid wsId .start st).out = [.toConn .startDenied] ∧
    (handleMessage uid wsId .start st).err = false := by
  have hc : ¬ (p.slot_idx = some 0 ∧ p.in_game_area = true ∧
      st.game_started = false) := by
    rcases h with h | h
    · rintro ⟨h0, -, -⟩
      exact h h0
    · rintro ⟨-, -, hgf⟩
      rw [h] at hgf
      exact Bool.noConfusion hgf
  rw [handleMessage_known hp, handleCore_start_denied hc]
  exact ⟨rfl, rfl, rfl⟩

/-- Witness for C5: the slotless B is denied at the concrete in-progress
state, with the shared state untouched. -/
theorem c5_witness :
    (handleMessage "B" 2 .start stStartedAB).st = stStartedAB ∧
    (handleMessage "B" 2 .start stStartedAB).out = [.toConn .startDenied] ∧
    (handleMessage "B" 2 .start stStartedAB).err = false :=
  c5_start_denied (show lookupP "B" stStartedAB.players = some recSB by rfl)
    (Or.inl (by decide)) 2


/-- C6, counterexample: pre-start, slot-holding A disconnects; the
disconnect handler releases the slot and clears the area flags
(lines 231-247), so when A reconnects supplying its token the record does
not carry the pre-disconnection slotIndex 0: the claim fails for a pre-start
slotted disconnector. -/
theorem c6_counterexample :
    Reachable stA1 ∧
    recA.slot_idx = some 0 ∧ recA.in_game_area = true ∧
    lookupP "A" ((connectStep (some "A") 2 "F" (disconnectStep "A" stA1).1).1).players =
      some { ws := some 2, connected := true, in_game_area := false, in_watch_area := false, slot_idx := none } ∧
    ¬ ((lookupP "A" ((connectStep (some "A") 2 "F" (disconnectStep "A" stA1).1).1).players).map
        Player.slot_idx = some recA.slot_idx) := by
  exact ⟨reachable_of_safe stA1_reachableSafe, rfl, rfl, by decide, by decide⟩

/-- C6, amended: the reconnection swap itself replaces only the connection
handle and sets connected true; slotIndex, inGameArea and inWatchArea
survive a disconnect-then-reconnect pair whenever the disconnection happened
post-start, or pre-start while the player held no slot.  (A pre-start
disconnection of a slot holder already clears them before any
reconnection.) -/
theorem c6_reconnect_preserves {st : ServerState} {uid : String} {p : Player}
    (hp : lookupP uid st.players = some p)
    (h : st.game_started = true ∨ p.slot_idx = none) (w2 : Nat) (f : String) :
    lookupP uid ((connectStep (some uid) w2 f (disconnectStep uid st).1).1).players =
      some { p with ws := some w2, connected := true } := by
  have hd : lookupP uid ((disconnectStep uid st).1).players =
      some { p with connected := false, ws := none } := by
    cases hg : st.game_started with
    | true =>
      simp only [disconnectStep, hp, hg, if_true]
      exact lookupP_setP_self _ _ _
    | false =>
      have hs : p.slot_idx = none := by
        rcases h with h1 | h1
        · rw [hg] at h1
          exact Bool.noConfusion h1
        · exact h1
      simp only [disconnectStep, hp, hg, hs, Bool.false_eq_true, if_false]
      exact lookupP_setP_self _ _ _
  simp only [connectStep, hd]
  exact lookupP_setP_self _ _ _

/-- Witness for C6 (amended): post-start disconnect and reconnect of A on a
new handle preserves slot 0 and the area flags. -/
theorem c6_witness :
    lookupP "A" ((connectStep (some "A") 9 "F" (disconnectStep "A" stStartedAB).1).1).players =
      some { recA with ws := some 9, connected := true } :=
  c6_reconnect_preserves (show lookupP "A" stStartedAB.players = some recA by rfl)
    (Or.inl rfl) 9 "F"

/-- C7, counterexample: at the reachable in-progress state where slot-holder
A is connected but outside the game area, a LEAVE_GAME from A falls into the
defensive no-op branch (lines 199-201): no player-left notice is broadcast
and the connection handle is not cleared, contradicting the claim for this
slot-holding leaver (the slot itself is indeed kept). -/
theorem c7_counterexample :
    Reachable stC7 ∧
    recC7.slot_idx = some 0 ∧
    stC7.game_started = true ∧
    (handleMessage "A" 3 .leaveGame stC7).out = [] ∧
    lookupP "A" ((handleMessage "A" 3 .leaveGame stC7).st).players = some recC7 := by
  exact ⟨stC7_reachable, rfl, rfl, by decide, by decide⟩

/-- C7, amended: after gameStarted, (i) a LEAVE_GAME from a slot-holding
player in the game area keeps the table entry and slotIndex, flips
inGameArea and connected off, clears the handle, and broadcasts PLAYER_LEFT;
(ii) a LEAVE_GAME from a slot holder not in the game area keeps everything
except (re)setting inGameArea false, with no broadcast and no handle
clearing; (iii) a transport disconnection of a slot holder keeps the table
entry and slotIndex, changes only connected and the handle, and broadcasts
PLAYER_DISCONNECTED. -/
theorem c7_post_start_leave {st : ServerState} (hg : st.game_started = true)
    {uid : String} {p : Player} (hp : lookupP uid st.players = some p)
    {idx : Nat} (hidx : p.slot_idx = some idx) (wsId : Nat) :
    (p.in_game_area = true →
      (handleMessage uid wsId .leaveGame st).st.slots = st.slots ∧
      lookupP uid (handleMessage uid wsId .leaveGame st).st.players =
        some { p with in_game_area := false, connected := false, ws := none } ∧
      (handleMessage uid wsId .leaveGame st).out = [.toAll (.playerLeft uid)]) ∧
    (p.in_game_area = false →
      (handleMessage uid wsId .leaveGame st).st.slots = st.slots ∧
      lookupP uid (handleMessage uid wsId .leaveGame st).st.players =
        some { p with in_game_area := false } ∧
      (handleMessage uid wsId .leaveGame st).out = []) ∧
    ((disconnectStep uid st).1.slots = st.slots ∧
      lookupP uid (disconnectStep uid st).1.players =
        some { p with connected := false, ws := none } ∧
      (disconnectStep uid st).2 = [.toAll (.playerDisconnected uid)]) := by
  refine ⟨?_, ?_, ?_⟩
  · intro harea
    rw [handleMessage_known hp, handleCore_leaveGame_post hg harea hidx]
    exact ⟨rfl, lookupP_setP_self _ _ _, rfl⟩
  · intro harea
    rw [handleMessage_known hp, handleCore_leaveGame_notInArea harea]
    exact ⟨rfl, lookupP_setP_self _ _ _, rfl⟩
  · simp only [disconnectStep, hp, hg, if_true]
    exact ⟨trivial, lookupP_setP_self _ _ _, trivial⟩

/-- Witness for C7 (amended): A leaves in progress, the table keeps A and
PLAYER_LEFT is broadcast; a transport loss broadcasts PLAYER_DISCONNECTED. -/
theorem c7_witness :
    (handleMessage "A" 1 .leaveGame stStartedAB).st.slots = stStartedAB.slots ∧
    (handleMessage "A" 1 .leaveGame stStartedAB).out = [.toAll (.playerLeft "A")] ∧
    (disconnectStep "A" stStartedAB).2 = [.toAll (.playerDisconnected "A")] := by
  have h := c7_post_start_leave rfl
    (show lookupP "A" stStartedAB.players = some recA by rfl)
    (show recA.slot_idx = some 0 by rfl) 1
  exact ⟨(h.1 rfl).1, (h.1 rfl).2.2, h.2.2.2.2⟩

/-- C8: with the session in progress, an ENTER_GAME from a slotless
requester is answered ONLY_SPECTATOR and the requester is forced into
spectating (inGameArea false, inWatchArea true, no slot acquired, table
unchanged); from a slot holder, re-entry is granted by flipping the area
flags, with no new slot and no table change -- in both cases with no
condition on the (possibly stale) connected flag. -/
theorem c8_enterGame_inProgress {st : ServerState} (hg : st.game_started = true)
    {uid : String} {p : Player} (hp : lookupP uid st.players = some p) (wsId : Nat) :
    (p.slot_idx = none →
      (handleMessage uid wsId .enterGame st).st.slots = st.slots ∧
      lookupP uid (handleMessage uid wsId .enterGame st).st.players =
        some { p with in_game_area := false, in_watch_area := true, slot_idx := none } ∧
      (handleMessage uid wsId .enterGame st).out = [.toConn .onlySpectator]) ∧
    (∀ i : Nat, p.slot_idx = some i →
      (handleMessage uid wsId .enterGame st).st.slots = st.slots ∧
      lookupP uid (handleMessage uid wsId .enterGame st).st.players =
        some { p with in_game_area := true, in_watch_area := false } ∧
      (handleMessage uid wsId .enterGame st).out = [.toConn (.joined (slot_label i))]) := by
  constructor
  · intro hs
    rw [handleMessage_known hp, handleCore_enterGame_started_none hg hs]
    exact ⟨rfl, lookupP_setP_self _ _ _, rfl⟩
  · intro i hs
    rw [handleMessage_known hp, handleCore_enterGame_started_slot hg hs]
    exact ⟨rfl, lookupP_setP_self _ _ _, rfl⟩

/-- Witness for C8: at the concrete in-progress state, the slotless
(and stale-disconnected) B is redirected to spectating while slot-holder A
rejoins, in both cases without touching the slot table. -/
theorem c8_witness :
    (handleMessage "B" 2 .enterGame stStartedAB).out = [.toConn .onlySpectator] ∧
    (handleMessage "B" 2 .enterGame stStartedAB).st.slots = stStartedAB.slots ∧
    (handleMessage "A" 1 .enterGame stStartedAB).out = [.toConn (.joined (slot_label 0))] ∧
    (handleMessage "A" 1 .enterGame stStartedAB).st.slots = stStartedAB.slots := by
  have hB := c8_enterGame_inProgress rfl
    (show lookupP "B" stStartedAB.players = some recSB by rfl) 2
  have hA := c8_enterGame_inProgress rfl
    (show lookupP "A" stStartedAB.players = some recA by rfl) 1
  exact ⟨(hB.1 rfl).2.2, (hB.1 rfl).1, (hA.2 0 rfl).2.2, (hA.2 0 rfl).1⟩

/-- C9: gameStarted is monotonic: along any sequence of further operations
(connection opens, inbound messages of every kind, disconnections) from a
state where it is true, it remains true -- no operation resets it. -/
theorem c9_gameStarted_monotonic {st st1 : ServerState} (h : Steps st st1)
    (hg : st.game_started = true) : st1.game_started = true :=
  steps_game_started_mono h hg

/-- Witness for C9: one further LEAVE_GAME step from the concrete
in-progress state leaves the flag true. -/
theorem c9_witness :
    (stepState stStartedAB (.msg "A" 1 .leaveGame)).game_started = true :=
  c9_gameStarted_monotonic (Steps.tail _ (Steps.refl _)) rfl

/-- C10: post-start, an ENTER_SPECTATE from the slot holder at table
position i clears the record slot reference while the table keeps the
identity at position i; after any sequence of further operations the session
is still in progress, the identity still occupies position i, the record
slot reference is still cleared, and every ENTER_GAME from that identity is
answered ONLY_SPECTATOR, leaving it outside the game area with no slot
reference -- the player can never re-enter. -/
theorem c10_spectate_lockout {st : ServerState} (hg : st.game_started = true)
    {u : String} {p : Player} (hp : lookupP u st.players = some p)
    {i : Nat} (_hi : p.slot_idx = some i) (hslot : st.slots[i]? = some u)
    (w : Nat) :
    lookupP u ((handleMessage u w .enterSpectate st).st).players =
      some { p with in_game_area := false, in_watch_area := true, slot_idx := none } ∧
    (handleMessage u w .enterSpectate st).st.slots = st.slots ∧
    (∀ st1 : ServerState, Steps (handleMessage u w .enterSpectate st).st st1 →
      st1.game_started = true ∧
      st1.slots[i]? = some u ∧
      (∃ q, lookupP u st1.players = some q ∧ q.slot_idx = none) ∧
      (∀ w2 : Nat,
        (handleMessage u w2 .enterGame st1).out = [.toConn .onlySpectator] ∧
        (handleMessage u w2 .enterGame st1).st.slots = st1.slots ∧
        (∃ q2, lookupP u ((handleMessage u w2 .enterGame st1).st).players = some q2 ∧
          q2.slot_idx = none ∧ q2.in_game_area = false))) := by
  have heq : (handleMessage u w .enterSpectate st).st =
      { st with players := setP u { p with in_game_area := false, in_watch_area := true, slot_idx := none } st.players } := by
    rw [handleMessage_known hp, handleCore_spectate]
  have hg0 : (handleMessage u w .enterSpectate st).st.game_started = true := by
    rw [heq]
    exact hg
  have hlu : lookupP u ((handleMessage u w .enterSpectate st).st).players =
      some { p with in_game_area := false, in_watch_area := true, slot_idx := none } := by
    rw [heq]
    exact lookupP_setP_self _ _ _
  have hsl : (handleMessage u w .enterSpectate st).st.slots = st.slots := by
    rw [heq]
  refine ⟨hlu, hsl, ?_⟩
  intro st1 hsteps
  have hg1 : st1.game_started = true := steps_game_started_mono hsteps hg0
  have hslots1 : st1.slots = st.slots := by
    rw [steps_slots_frozen hsteps hg0, hsl]
  have hq : ∃ q, lookupP u st1.players = some q ∧ q.slot_idx = none :=
    steps_slotNone hsteps hg0 hlu rfl
  refine ⟨hg1, by rw [hslots1]; exact hslot, hq, ?_⟩
  intro w2
  obtain ⟨q, hq1, hq2⟩ := hq
  rw [handleMessage_known hq1, handleCore_enterGame_started_none hg1 hq2]
  refine ⟨rfl, rfl, ?_⟩
  exact ⟨_, lookupP_setP_self _ _ _, rfl, rfl⟩

/-- Witness for C10: at the concrete in-progress state, after A spectates
away from slot 0, an immediate ENTER_GAME is answered ONLY_SPECTATOR while
the table still lists A. -/
theorem c10_witness :
    (handleMessage "A" 1 .enterGame
      ((handleMessage "A" 1 .enterSpectate stStartedAB).st)).out =
        [.toConn .onlySpectator] ∧
    ((handleMessage "A" 1 .enterSpectate stStartedAB).st).slots[0]? = some "A" := by
  have h := c10_spectate_lockout rfl
    (show lookupP "A" stStartedAB.players = some recA by rfl)
    (show recA.slot_idx = some 0 by rfl)
    (show stStartedAB.slots[0]? = some "A" by rfl) 1
  have h4 := h.2.2 _ (Steps.refl _)
  exact ⟨(h4.2.2.2 1).1, h4.2.1⟩

end Server
